import Mathlib

/-!
Verification of the khmac repository (an HMAC engine, FIPS 198 style)
against its natural-language specification.

Byte strings are modelled as `List Nat` with each entry below 256, text
(Python `str`) as a `List Nat` of Unicode code points, and the external
hash provider (hashlib) as a structure carrying a block size and a pure
digest function.  A hashlib hash object is represented by the byte
sequence it has accumulated: `update` appends, `digest` applies the
provider's function, `copy` duplicates the accumulated bytes.  Fallible
Python code returns `Except PyError`.
-/

namespace Khmac

/-- Errors raised by the Python code.  `keyTypeError` and `msgTypeError`
are the constructor's TypeErrors for a bad key or message (the spec's
InvalidKeyType / InvalidMessageType), `unsupportedHash` its ValueError
(UnsupportedAlgorithm), `updateTypeError` the TypeError hashlib's update
raises on a non bytes-like argument, `attributeError` the AttributeError
from calling a missing method, `asciiValueError` the ValueError unhexlify
raises on a non-ASCII text argument, and `cmpTypeError` the TypeError
compare_digest raises on a str / bytes mix. -/
inductive PyError where
  | keyTypeError
  | msgTypeError
  | unsupportedHash
  | updateTypeError
  | attributeError
  | asciiValueError
  | cmpTypeError
deriving DecidableEq

/-- A hash algorithm supplied by the Hash Provider (hashlib or a
provider-compatible constructor): a block size and the pure function from
accumulated input bytes to digest bytes.  `hash_bytes` records the
provider contract that digests are byte strings (every entry < 256). -/
structure HashAlg where
  blockSize : Nat
  hash : List Nat → List Nat
  hash_bytes : ∀ l, ((hash l).all (fun x => x < 256)) = true

/-- A Python value passed as key or message: text (code points), a byte
sequence (bytes or bytearray), or anything else. -/
inductive PyVal where
  | str (s : List Nat)
  | bytes (b : List Nat)
  | other

/-- The `hash_func` argument of the constructor: a provider-compatible
callable, a name to resolve against the provider, or anything else. -/
inductive HashArg where
  | callable (alg : HashAlg)
  | name (s : String)
  | other

/-- The Hash Provider's name resolution (`hasattr`/`getattr` on hashlib). -/
def Registry := String → Option HashAlg

/-- UTF-8 encoding of one code point (Python `str.encode`). -/
def utf8EncodeChar (c : Nat) : List Nat :=
  if c < 0x80 then [c]
  else if c < 0x800 then [0xC0 + c / 64, 0x80 + c % 64]
  else if c < 0x10000 then
    [0xE0 + c / 4096, 0x80 + (c / 64) % 64, 0x80 + c % 64]
  else
    [0xF0 + c / 262144, 0x80 + (c / 4096) % 64, 0x80 + (c / 64) % 64,
     0x80 + c % 64]

/-- UTF-8 encoding of a text value (Python `str.encode`). -/
def utf8Encode (s : List Nat) : List Nat :=
  (s.map utf8EncodeChar).flatten

/-- Coercion performed by the constructor on key and message: text is
encoded, byte sequences pass through, anything else is rejected. -/
def toBytes : PyVal → Option (List Nat)
  | .str s => some (utf8Encode s)
  | .bytes b => some b
  | .other => none

/-- OPAD table of src/khmac/khmac.py: `bytes(i ^ 0x5c for i in range(256))`. -/
def OPAD : List Nat := (List.range 256).map (fun i => i ^^^ 0x5c)

/-- IPAD table of src/khmac/khmac.py: `bytes(i ^ 0x36 for i in range(256))`. -/
def IPAD : List Nat := (List.range 256).map (fun i => i ^^^ 0x36)

/-- The `xor` helper, `key.translate(pad)`: map each byte through the
256-entry table. -/
def xorT (b : List Nat) (pad : List Nat) : List Nat :=
  b.map (fun i => pad.getD i 0)

/-- Python `bytes.ljust(width, fill)`: right-pad to `width`, never
truncating. -/
def ljust (b : List Nat) (width : Nat) (fill : Nat) : List Nat :=
  b ++ List.replicate (width - b.length) fill

/-- Key normalization of `KHMAC.__init__` (src/khmac/khmac.py lines
109-112): condense a key longer than the block size through the unkeyed
hash, then right-pad with zero bytes to the block size. -/
def normKey (alg : HashAlg) (key : List Nat) : List Nat :=
  let key := if alg.blockSize < key.length then alg.hash key else key
  ljust key alg.blockSize 0

/-- The HMAC context of src/khmac/khmac.py: the resolved algorithm and
the two hashlib objects, each represented by its accumulated input
bytes (`__block_1` is the outer state, `__block_2` the inner state). -/
structure KHMAC where
  alg : HashAlg
  block_1 : List Nat
  block_2 : List Nat

/-- Appending bytes to the inner state: the effect of
`self.__block_2.update(msg)` on a bytes-like `msg`. -/
def KHMAC.updateBytes (h : KHMAC) (msg : List Nat) : KHMAC :=
  { h with block_2 := h.block_2 ++ msg }

/-- `KHMAC.update` of src/khmac/khmac.py (lines 144-153): the argument is
passed straight to the inner hash object's update, which accepts bytes
and bytearray and raises TypeError on text and on anything else.  No
encoding of text takes place. -/
def KHMAC.update (h : KHMAC) : PyVal → Except PyError KHMAC
  | .bytes b => .ok (h.updateBytes b)
  | .str _ => .error .updateTypeError
  | .other => .error .updateTypeError

/-- Resolution of the `hash_func` argument (src/khmac/khmac.py lines
99-105): a callable is used as is, a string is looked up on hashlib,
anything else is unsupported. -/
def resolveHash (reg : Registry) : HashArg → Option HashAlg
  | .callable a => some a
  | .name s => reg s
  | .other => none

/-- `KHMAC.__init__` of src/khmac/khmac.py (lines 87-118): validate and
encode key and message, resolve the hash function, normalize the key,
seed the outer and inner states with key XOR OPAD / key XOR IPAD, and
feed a non-empty message to the inner state. -/
def khmacInit (reg : Registry) (key msg : PyVal) (hashArg : HashArg) :
    Except PyError KHMAC :=
  match toBytes key with
  | none => .error .keyTypeError
  | some keyB =>
    match toBytes msg with
    | none => .error .msgTypeError
    | some msgB =>
      match resolveHash reg hashArg with
      | none => .error .unsupportedHash
      | some alg =>
        let k := normKey alg keyB
        let base : KHMAC := ⟨alg, xorT k OPAD, xorT k IPAD⟩
        .ok (if msgB = [] then base else base.updateBytes msgB)

/-- `KHMAC.__finalize` (src/khmac/khmac.py lines 124-130): copy the outer
state and feed it the inner state's current digest.  The result is the
copy's accumulated input; the context's own fields are not touched. -/
def KHMAC.finalize (h : KHMAC) : List Nat :=
  h.block_1 ++ h.alg.hash h.block_2

/-- `KHMAC.digest`: the digest of the finalized copy. -/
def KHMAC.digest (h : KHMAC) : List Nat :=
  h.alg.hash h.finalize

/-- Lowercase hex digit for a value below 16 (hashlib `hexdigest`
alphabet). -/
def hexDigitLower (n : Nat) : Nat :=
  if n < 10 then 48 + n else 87 + n

/-- Lowercase hex encoding of a byte string, as the code points of the
resulting text (hashlib `hexdigest`). -/
def hexStrCodes : List Nat → List Nat
  | [] => []
  | b :: rest => hexDigitLower (b / 16) :: hexDigitLower (b % 16) ::
      hexStrCodes rest

/-- `KHMAC.hexdigest`: the digest rendered as lowercase hex text. -/
def KHMAC.hexdigest (h : KHMAC) : List Nat :=
  hexStrCodes h.digest

/-- Value of one hex digit character, upper or lower case
(binascii's digit table); `none` on a non-hex character. -/
def hexVal (c : Nat) : Option Nat :=
  if 48 ≤ c ∧ c ≤ 57 then some (c - 48)
  else if 97 ≤ c ∧ c ≤ 102 then some (c - 87)
  else if 65 ≤ c ∧ c ≤ 70 then some (c - 55)
  else none

/-- `binascii.unhexlify` on a byte string (or on the code points of an
ASCII text): `none` models binascii.Error (odd length or a non-hex
character), `some` the decoded bytes. -/
def unhexB : List Nat → Option (List Nat)
  | [] => some []
  | [_] => none
  | a :: b :: rest =>
    match hexVal a, hexVal b, unhexB rest with
    | some x, some y, some d => some ((16 * x + y) :: d)
    | _, _, _ => none

/-- The hex-tolerant decoding step of `verify`: replace the candidate by
its unhexlified form when decoding succeeds, keep it as is when
binascii.Error is raised. -/
def hexTolerant (b : List Nat) : List Nat :=
  match unhexB b with
  | some d => d
  | none => b

/-- A candidate passed to `verify`: another engine instance, text, or a
byte sequence. -/
inductive Candidate where
  | engine (h : KHMAC)
  | text (s : List Nat)
  | bytes (b : List Nat)

/-- `KHMAC.verify` of src/khmac/khmac.py (lines 155-170).  An engine
candidate is replaced by its digest; then `unhexlify` is attempted, with
only binascii.Error caught; finally `_compare_digest` runs against the
context's own digest.  On a text candidate, a non-ASCII string makes
unhexlify raise a plain ValueError (uncaught), and a string that fails
hex decoding stays a `str`, so `_compare_digest(str, bytes)` raises
TypeError. -/
def KHMAC.verify (h : KHMAC) : Candidate → Except PyError Bool
  | .engine h2 => .ok (hexTolerant h2.digest == h.digest)
  | .bytes b => .ok (hexTolerant b == h.digest)
  | .text s =>
    if s.all (fun c => c < 128) then
      match unhexB s with
      | some d => .ok (d == h.digest)
      | none => .error .cmpTypeError
    else .error .asciiValueError

/-- `KHMAC.__init__` of the legacy top-level module src/khmac.py (lines
64-104): only a hashlib name is accepted; a key longer than the block
size hits `hash_func(key).ljust(...)`, an attribute lookup that fails
because hash objects have no `ljust` (AttributeError); a shorter key is
right-padded; the message is always fed to the inner state. -/
def legacyInit (reg : Registry) (key msg : List Nat) (name : String) :
    Except PyError KHMAC :=
  match reg name with
  | none => .error .unsupportedHash
  | some alg =>
    if alg.blockSize < key.length then .error .attributeError
    else
      let k := if key.length < alg.blockSize then ljust key alg.blockSize 0
               else key
      .ok ⟨alg, xorT k OPAD, xorT k IPAD ++ msg⟩

/-- Modelled from the spec: the clone operation (section 4.4).  No
`clone`/`copy` method appears in src/khmac/khmac.py, although
src/khmac/example.py calls `hmac1.copy()`; per the spec it produces an
independent context whose two states are true copies of the original's. -/
def KHMAC.copy (h : KHMAC) : KHMAC :=
  { alg := h.alg, block_1 := h.block_1, block_2 := h.block_2 }

/-- State-passing form of `digest`: the returned context is the receiver,
since `digest` only reads the fields (the outer state is copied before
being fed the inner digest). -/
def KHMAC.digestS (h : KHMAC) : List Nat × KHMAC := (h.digest, h)

/-- State-passing form of `hexdigest`, likewise mutation-free. -/
def KHMAC.hexdigestS (h : KHMAC) : List Nat × KHMAC := (h.hexdigest, h)

/-- Whether an `Except` computation succeeded. -/
def isOkE {ε α : Type} : Except ε α → Bool
  | .ok _ => true
  | .error _ => false

/-- Whether a Python value is text or a byte sequence. -/
def isTextOrBytes : PyVal → Bool
  | .str _ => true
  | .bytes _ => true
  | .other => false

/-- A small provider-compatible hash used for concrete evaluations: block
size 4, digest the single byte summing the input modulo 256. -/
def toyAlg : HashAlg where
  blockSize := 4
  hash := fun l => [(l.foldl (fun a x => a + x) 0) % 256]
  hash_bytes := by
    intro l
    simp [List.all]
    exact Nat.mod_lt _ (by norm_num)

/-- A one-entry registry resolving the name "toy" to `toyAlg`. -/
def toyReg : Registry := fun s => if s = "toy" then some toyAlg else none

/-- A provider-compatible hash whose digest bytes are the ASCII text
"aa", hence themselves a valid hex string. -/
def hexyAlg : HashAlg where
  blockSize := 4
  hash := fun _ => [97, 97]
  hash_bytes := by intro l; rfl

/-- A concrete validly constructed context over `toyAlg`, key b"k". -/
def h0 : KHMAC :=
  ⟨toyAlg, xorT (normKey toyAlg [107]) OPAD, xorT (normKey toyAlg [107]) IPAD⟩

/-- A concrete context over `hexyAlg`, empty key and message. -/
def hHexy : KHMAC :=
  ⟨hexyAlg, xorT (normKey hexyAlg []) OPAD, xorT (normKey hexyAlg []) IPAD⟩

/-- The program `c = h.clone(); c.update(x)` in state-passing form: the
pair of the untouched original and the mutated clone. -/
def cloneUpdateRun (h : KHMAC) (x : List Nat) : KHMAC × KHMAC :=
  (h, (h.copy).updateBytes x)

/-- The program `c = h.clone(); h.update(y)` in state-passing form: the
pair of the mutated original and the clone taken beforehand. -/
def origUpdateRun (h : KHMAC) (y : List Nat) : KHMAC × KHMAC :=
  ((h.updateBytes y), h.copy)

/-- The legacy context obtained from key b"\x01\x02", message b"\x09",
algorithm "toy". -/
def lh0 : KHMAC :=
  ⟨toyAlg, xorT (ljust [1, 2] 4 0) OPAD, xorT (ljust [1, 2] 4 0) IPAD ++ [9]⟩

/-- The packaged context obtained from key b"\x01\x02", message b"\x09",
algorithm "toy". -/
def ph0 : KHMAC :=
  ⟨toyAlg, xorT (normKey toyAlg [1, 2]) OPAD,
   xorT (normKey toyAlg [1, 2]) IPAD ++ [9]⟩

/-- Digest bytes are below 256, by the provider contract. -/
lemma digest_bytes (h : KHMAC) : ∀ x ∈ h.digest, x < 256 := by
  have hb := h.alg.hash_bytes h.finalize
  simp only [List.all_eq_true, decide_eq_true_eq] at hb
  exact hb

/-- The lowercase hex alphabet decodes back to the digit value. -/
lemma hexVal_hexDigitLower (n : Nat) (hn : n < 16) :
    hexVal (hexDigitLower n) = some n := by
  interval_cases n <;> rfl

/-- Lowercase hex digits are ASCII. -/
lemma hexDigitLower_lt (n : Nat) (hn : n < 16) : hexDigitLower n < 128 := by
  unfold hexDigitLower
  split <;> omega

/-- The hex encoding of a byte string is ASCII text. -/
lemma hexStrCodes_ascii (d : List Nat) (hd : ∀ x ∈ d, x < 256) :
    (hexStrCodes d).all (fun c => c < 128) = true := by
  induction d with
  | nil => rfl
  | cons b rest ih =>
    have hb : b < 256 := hd b (by simp)
    have h1 : b / 16 < 16 := by omega
    have h2 : b % 16 < 16 := Nat.mod_lt _ (by norm_num)
    simp only [hexStrCodes, List.all_cons, Bool.and_eq_true, decide_eq_true_eq]
    exact ⟨hexDigitLower_lt _ h1, hexDigitLower_lt _ h2,
      by simpa using ih (fun x hx => hd x (by simp [hx]))⟩

/-- Unhexlifying the lowercase hex encoding of a byte string gives the
bytes back. -/
lemma unhexB_hexStrCodes (d : List Nat) (hd : ∀ x ∈ d, x < 256) :
    unhexB (hexStrCodes d) = some d := by
  induction d with
  | nil => rfl
  | cons b rest ih =>
    have hb : b < 256 := hd b (by simp)
    have h1 : b / 16 < 16 := by omega
    have h2 : b % 16 < 16 := Nat.mod_lt _ (by norm_num)
    have hrest := ih (fun x hx => hd x (by simp [hx]))
    simp only [hexStrCodes, unhexB, hexVal_hexDigitLower _ h1,
      hexVal_hexDigitLower _ h2, hrest]
    rw [Nat.div_add_mod]

/-- C7: for every context and fragments A and B, update(A) then update(B)
yields the same final digest as the single call update(A ++ B); fragment
boundaries introduce no framing. -/
theorem c7_chunking_law (h : KHMAC) (A B : List Nat) :
    Except.map KHMAC.digest
      (Except.bind (h.update (PyVal.bytes A))
        (fun h2 => h2.update (PyVal.bytes B)))
      = Except.map KHMAC.digest (h.update (PyVal.bytes (A ++ B))) := by
  simp [KHMAC.update, KHMAC.updateBytes, Except.bind, Except.map,
    List.append_assoc]

/-- C8: finalization never mutates the context: digest and hexdigest are
computed from a fresh copy of the outer state fed the current inner
digest, the context returned by each read is the receiver itself, and
repeated reads give identical results. -/
theorem c8_finalize_is_pure (h : KHMAC) :
    h.digestS.1 = h.alg.hash (h.block_1 ++ h.alg.hash h.block_2) ∧
    h.hexdigestS.1 = hexStrCodes h.digestS.1 ∧
    h.digestS.2 = h ∧
    h.hexdigestS.2 = h ∧
    (h.digestS.2).digestS.1 = h.digestS.1 ∧
    (h.hexdigestS.2).hexdigestS.1 = h.hexdigestS.1 :=
  ⟨rfl, rfl, rfl, rfl, rfl, rfl⟩

/-- C2: the clone operation (modelled from the spec, since the packaged
module has no copy method although example.py calls it) produces an
independent context: its two states are true copies, updating the clone
leaves the original's digest unchanged while the clone digests as the
original would after the same update, and updating the original leaves
the prior clone's digest unchanged. -/
theorem c2_clone_independence (h : KHMAC) (x y : List Nat) :
    (cloneUpdateRun h x).1.digest = h.digest ∧
    (cloneUpdateRun h x).2.digest = (h.updateBytes x).digest ∧
    (origUpdateRun h y).2.digest = h.digest ∧
    (h.copy).block_1 = h.block_1 ∧
    (h.copy).block_2 = h.block_2 :=
  ⟨rfl, rfl, rfl, rfl, rfl⟩

/-- C4: evaluation of the update operation: a byte sequence is appended
to the inner state, but a text argument is not encoded — it is rejected
with hashlib's TypeError, as is any other non bytes-like value. -/
theorem c4_update_type_handling (h : KHMAC) (b s : List Nat) :
    h.update (PyVal.bytes b) = .ok (h.updateBytes b) ∧
    h.update (PyVal.str s) = .error PyError.updateTypeError ∧
    h.update PyVal.other = .error PyError.updateTypeError :=
  ⟨rfl, rfl, rfl⟩

/-- C6: for byte-sequence messages, constructing with (key, message) and
digesting equals constructing with (key, empty) and one update(message);
but at the concrete text message "a" the left construction succeeds
while the right-hand update raises, because update does not encode text. -/
theorem c6_init_vs_update :
    (∀ (reg : Registry) (key : PyVal) (hashArg : HashArg) (msg : List Nat),
      Except.map KHMAC.digest (khmacInit reg key (PyVal.bytes msg) hashArg)
        = Except.map KHMAC.digest
            (Except.bind (khmacInit reg key (PyVal.bytes []) hashArg)
              (fun c => c.update (PyVal.bytes msg)))) ∧
    isOkE (khmacInit toyReg (PyVal.bytes [107]) (PyVal.str [97])
      (HashArg.callable toyAlg)) = true ∧
    Except.bind (khmacInit toyReg (PyVal.bytes [107]) (PyVal.bytes [])
        (HashArg.callable toyAlg))
      (fun c => c.update (PyVal.str [97])) = .error PyError.updateTypeError := by
  refine ⟨?_, rfl, rfl⟩
  intro reg key hashArg msg
  cases key <;>
    cases ha : resolveHash reg hashArg <;>
      by_cases hmsg : msg = [] <;>
        simp_all [khmacInit, toBytes, KHMAC.update, KHMAC.updateBytes,
          Except.bind, Except.map, KHMAC.digest, KHMAC.finalize]

/-- C9 (amended): construction rejects with the key TypeError exactly
when the key is neither text nor a byte sequence; otherwise with the
message TypeError exactly when the message is neither; otherwise with
the unsupported-hash ValueError exactly when the hash argument is
neither callable nor a resolvable name; otherwise it succeeds. -/
theorem c9_construction_errors (reg : Registry) (k m : PyVal) (a : HashArg) :
    ((khmacInit reg k m a = .error PyError.keyTypeError) ↔
      isTextOrBytes k = false) ∧
    ((khmacInit reg k m a = .error PyError.msgTypeError) ↔
      (isTextOrBytes k = true ∧ isTextOrBytes m = false)) ∧
    ((khmacInit reg k m a = .error PyError.unsupportedHash) ↔
      (isTextOrBytes k = true ∧ isTextOrBytes m = true ∧
        (resolveHash reg a).isSome = false)) ∧
    (isOkE (khmacInit reg k m a) = true ↔
      (isTextOrBytes k = true ∧ isTextOrBytes m = true ∧
        (resolveHash reg a).isSome = true)) := by
  cases k <;> cases m <;> cases ha : resolveHash reg a <;>
    simp_all [khmacInit, toBytes, isTextOrBytes, isOkE]

/-- C9 counterexample: a bytes key and a callable algorithm with a
message that is neither text nor bytes: the claim says construction
succeeds, but the code rejects with the message TypeError. -/
theorem c9_counterexample :
    khmacInit toyReg (PyVal.bytes []) PyVal.other (HashArg.callable toyAlg)
      = .error PyError.msgTypeError := rfl

/-- C5: key normalization: with a provider whose digests do not exceed
the block size, a key longer than the block size is condensed through
the unkeyed hash (then zero-padded), a shorter key is right-padded with
zero bytes, an exact-length key passes through unchanged, the effective
key always has length exactly the block size, and construction seeds the
two states with the normalized key XOR OPAD / XOR IPAD. -/
theorem c5_key_normalization (alg : HashAlg) (key : List Nat)
    (hle : (alg.hash key).length ≤ alg.blockSize) :
    (alg.blockSize < key.length →
      normKey alg key = ljust (alg.hash key) alg.blockSize 0) ∧
    (key.length < alg.blockSize →
      normKey alg key = key ++ List.replicate (alg.blockSize - key.length) 0) ∧
    (key.length = alg.blockSize → normKey alg key = key) ∧
    (normKey alg key).length = alg.blockSize ∧
    (∀ (reg : Registry) (msg : List Nat),
      khmacInit reg (PyVal.bytes key) (PyVal.bytes msg) (HashArg.callable alg)
        = .ok ⟨alg, xorT (normKey alg key) OPAD,
               xorT (normKey alg key) IPAD ++ msg⟩) := by
  refine ⟨?_, ?_, ?_, ?_, ?_⟩
  · intro hgt
    simp [normKey, hgt]
  · intro hlt
    have hngt : ¬ alg.blockSize < key.length := by omega
    simp [normKey, hngt, ljust]
  · intro heq
    have hngt : ¬ alg.blockSize < key.length := by omega
    simp [normKey, hngt, ljust, heq]
  · by_cases hgt : alg.blockSize < key.length <;>
      simp [normKey, hgt, ljust] <;> omega
  · intro reg msg
    by_cases hmsg : msg = [] <;>
      simp [khmacInit, toBytes, resolveHash, KHMAC.updateBytes, hmsg]

/-- C5 witness: the toy algorithm and a key longer than its block size. -/
theorem c5_key_normalization_witness :
    (toyAlg.hash [1, 2, 3, 4, 5]).length ≤ toyAlg.blockSize ∧
    (normKey toyAlg [1, 2, 3, 4, 5]).length = toyAlg.blockSize :=
  ⟨by decide,
   (c5_key_normalization toyAlg [1, 2, 3, 4, 5] (by decide)).2.2.2.1⟩

/-- C1 (amended): h.verify(h.digest()) is true whenever the digest bytes
are not themselves hex-decodable; h.verify(h.hexdigest()) is always
true; and for a byte-sequence candidate, verify returns true exactly
when the hex-tolerantly decoded candidate equals the context's digest. -/
theorem c1_verify_symmetry (h : KHMAC) :
    (unhexB h.digest = none →
      h.verify (Candidate.bytes h.digest) = .ok true) ∧
    h.verify (Candidate.text h.hexdigest) = .ok true ∧
    (∀ b : List Nat,
      h.verify (Candidate.bytes b) = .ok true ↔ hexTolerant b = h.digest) := by
  refine ⟨?_, ?_, ?_⟩
  · intro hnone
    simp [KHMAC.verify, hexTolerant, hnone]
  · have hb : ∀ x ∈ h.digest, x < 256 := digest_bytes h
    simp [KHMAC.verify, KHMAC.hexdigest, hexStrCodes_ascii _ hb,
      unhexB_hexStrCodes _ hb]
  · intro b
    simp [KHMAC.verify, beq_iff_eq]

/-- C1 counterexample: a provider-compatible hash whose digest is the
bytes b"aa" (a valid hex string).  The context verifies its own raw
digest as false, because verify hex-decodes b"aa" to b"\xaa" before
comparing. -/
theorem c1_counterexample :
    khmacInit toyReg (PyVal.bytes []) (PyVal.bytes [])
        (HashArg.callable hexyAlg) = .ok hHexy ∧
    hHexy.verify (Candidate.bytes hHexy.digest) = .ok false :=
  ⟨rfl, rfl⟩

/-- C1 witness: a concrete context whose digest is not hex-decodable, so
verifying its own raw digest returns true. -/
theorem c1_verify_symmetry_witness :
    unhexB h0.digest = none ∧
    h0.verify (Candidate.bytes h0.digest) = .ok true :=
  ⟨by decide, (c1_verify_symmetry h0).1 (by decide)⟩

/-- C3 (amended): verify never raises on an engine-instance or
byte-sequence candidate, and returns false whenever the hex-tolerantly
decoded candidate differs in length from the context's digest; text
candidates that fail hex decoding raise instead. -/
theorem c3_verify_no_raise (h h2 : KHMAC) (b : List Nat) :
    isOkE (h.verify (Candidate.engine h2)) = true ∧
    isOkE (h.verify (Candidate.bytes b)) = true ∧
    ((hexTolerant b).length ≠ h.digest.length →
      h.verify (Candidate.bytes b) = .ok false) := by
  refine ⟨rfl, rfl, ?_⟩
  intro hne
  have hneq : hexTolerant b ≠ h.digest := fun e => hne (by rw [e])
  simp [KHMAC.verify]
  exact hneq

/-- C3 counterexample: the text candidate "zz" on a validly constructed
context: unhexlify fails with binascii.Error, the candidate stays a str,
and the constant-time compare raises TypeError on the str / bytes mix,
instead of returning false. -/
theorem c3_counterexample :
    khmacInit toyReg (PyVal.bytes [107]) (PyVal.bytes [])
        (HashArg.callable toyAlg) = .ok h0 ∧
    h0.verify (Candidate.text [122, 122]) = .error PyError.cmpTypeError :=
  ⟨rfl, rfl⟩

/-- C3 witness: a byte candidate of the wrong length on a concrete
context returns false. -/
theorem c3_verify_no_raise_witness :
    (hexTolerant [1, 2, 3]).length ≠ h0.digest.length ∧
    h0.verify (Candidate.bytes [1, 2, 3]) = .ok false :=
  ⟨by decide, (c3_verify_no_raise h0 h0 [1, 2, 3]).2.2 (by decide)⟩

/-- A successful legacy construction, written with the packaged key
normalization: for keys not exceeding the block size the two key
preparations coincide. -/
lemma legacyInit_ok (reg : Registry) (key msg : List Nat) (nm : String)
    (alg : HashAlg) (hreg : reg nm = some alg)
    (hgt : ¬ alg.blockSize < key.length) :
    legacyInit reg key msg nm
      = .ok ⟨alg, xorT (normKey alg key) OPAD,
             xorT (normKey alg key) IPAD ++ msg⟩ := by
  by_cases hlt : key.length < alg.blockSize
  · simp [legacyInit, hreg, hgt, normKey, hlt]
  · have he : alg.blockSize - key.length = 0 := by omega
    simp [legacyInit, hreg, hgt, normKey, hlt, ljust, he]

/-- A successful packaged construction on bytes key and message, with
the algorithm given by name. -/
lemma khmacInit_ok_bytes (reg : Registry) (key msg : List Nat) (nm : String)
    (alg : HashAlg) (hreg : reg nm = some alg) :
    khmacInit reg (PyVal.bytes key) (PyVal.bytes msg) (HashArg.name nm)
      = .ok ⟨alg, xorT (normKey alg key) OPAD,
             xorT (normKey alg key) IPAD ++ msg⟩ := by
  by_cases hm : msg = [] <;>
    simp [khmacInit, toBytes, resolveHash, hreg, KHMAC.updateBytes, hm]

/-- C10 (amended): whenever the legacy and the packaged constructors both
succeed on a bytes key, bytes message and resolvable name, the two
digests are identical; but on a key longer than the block size the
legacy constructor does not succeed — it raises AttributeError by
calling ljust on a hash object. -/
theorem c10_legacy_packaged_equiv :
    (∀ (reg : Registry) (key msg : List Nat) (nm : String) (hL hP : KHMAC),
      legacyInit reg key msg nm = .ok hL →
      khmacInit reg (PyVal.bytes key) (PyVal.bytes msg) (HashArg.name nm)
        = .ok hP →
      hL.digest = hP.digest) ∧
    legacyInit toyReg [1, 2, 3, 4, 5] [] "toy"
      = .error PyError.attributeError := by
  refine ⟨?_, rfl⟩
  intro reg key msg nm hL hP hLeq hPeq
  cases hreg : reg nm with
  | none => simp [legacyInit, hreg] at hLeq
  | some alg =>
    by_cases hgt : alg.blockSize < key.length
    · simp [legacyInit, hreg, hgt] at hLeq
    · rw [legacyInit_ok reg key msg nm alg hreg hgt] at hLeq
      rw [khmacInit_ok_bytes reg key msg nm alg hreg] at hPeq
      injection hLeq with hL1
      injection hPeq with hP1
      rw [← hL1, ← hP1]

/-- C10 witness: both constructors succeed on key b"\x01\x02", message
b"\x09" and algorithm "toy", and produce the same digest. -/
theorem c10_legacy_packaged_equiv_witness :
    legacyInit toyReg [1, 2] [9] "toy" = .ok lh0 ∧
    khmacInit toyReg (PyVal.bytes [1, 2]) (PyVal.bytes [9])
      (HashArg.name "toy") = .ok ph0 ∧
    lh0.digest = ph0.digest :=
  ⟨rfl, rfl,
   c10_legacy_packaged_equiv.1 toyReg [1, 2] [9] "toy" lh0 ph0 rfl rfl⟩

end Khmac
